/-
  Verification of the catalog-sync / price-cache / price-history subsystem.

  The definitions below are a shallow embedding of the JavaScript source:
  - `src/database/operations.js` (SQLite operations; the file contains two
    concatenated revisions, both embedded: the favorite-preserving upsert
    `insertItems` from the first revision, and the legacy delete-and-reinsert
    `insertItems` from the second revision, here `insertItemsLegacy`),
  - the SQLite-based `DataContext` provider (`loadPrices`, `loadData`,
    `syncFromAPI`),
  - `src/services/priceService.js` (`fetchPriceData`),
  - `src/services/apiService.js` (`determineCategory`),
  - `src/services/supabaseService.js` (`getSkinPriceHistoryFromSupabase`),
  - `src/components/PriceChart.js` (`loadPriceHistory`).

  JavaScript numbers are modelled as rationals (`ℚ`), timestamps (ms since
  epoch) as integers (`ℤ`), and JS `a || b` defaulting as explicit
  falsy-dispatch helpers.  SQLite tables are association lists in insertion
  order; `INSERT OR REPLACE` on the primary key replaces the row in place.
-/
import Mathlib

namespace CsSkins

/-- JS `a || b` for an optional string `a`: `undefined`/`null` and the empty
string are falsy, everything else is returned unchanged. -/
def jsOrStr (a : Option String) (b : String) : String :=
  match a with
  | none => b
  | some s => if s = "" then b else s

/-- JS `a || b` for an optional number `a`: `undefined`/`null` and `0` are
falsy, everything else is returned unchanged. -/
def jsOrQ (a : Option ℚ) (b : ℚ) : ℚ :=
  match a with
  | none => b
  | some x => if x = 0 then b else x

/-- JS `String.prototype.includes` on character lists. -/
def listContainsSub (pat : List Char) : List Char → Bool
  | [] => pat.isEmpty
  | c :: rest => pat.isPrefixOf (c :: rest) || listContainsSub pat rest

/-- JS `s.includes(pat)`. -/
def strIncludes (s pat : String) : Bool :=
  listContainsSub pat.toList s.toList

/-- `determineCategory` from apiService: classify a weapon name by lowercase
substring matching. -/
def determineCategory (weaponName : String) : String :=
  let name := weaponName.toLower
  if strIncludes name "knife" || strIncludes name "bayonet" ||
     strIncludes name "karambit" then "Knife"
  else if strIncludes name "ak-47" || strIncludes name "m4a4" ||
     strIncludes name "m4a1" || strIncludes name "aug" ||
     strIncludes name "sg 553" || strIncludes name "famas" ||
     strIncludes name "galil" || strIncludes name "awp" ||
     strIncludes name "ssg 08" || strIncludes name "scar-20" ||
     strIncludes name "g3sg1" then "Rifle"
  else if strIncludes name "glock" || strIncludes name "usp" ||
     strIncludes name "p2000" || strIncludes name "p250" ||
     strIncludes name "five-seven" || strIncludes name "tec-9" ||
     strIncludes name "cz75" || strIncludes name "desert eagle" ||
     strIncludes name "dual berettas" || strIncludes name "r8 revolver"
     then "Pistol"
  else if strIncludes name "mac-10" || strIncludes name "mp9" ||
     strIncludes name "mp7" || strIncludes name "mp5" ||
     strIncludes name "ump-45" || strIncludes name "p90" ||
     strIncludes name "pp-bizon" then "SMG"
  else if strIncludes name "nova" || strIncludes name "xm1014" ||
     strIncludes name "mag-7" || strIncludes name "sawed-off" then "Shotgun"
  else if strIncludes name "m249" || strIncludes name "negev" then
     "Machine Gun"
  else if strIncludes name "gloves" || strIncludes name "glove" then "Gloves"
  else "Other"

/-- A nested `{ name: … }` object from the remote catalog API (weapon,
category, pattern, team, wear, crate, collection entries). -/
structure ApiNamed where
  name : String
  deriving Repr, DecidableEq

/-- A nested `{ name: …, color: … }` rarity object from the remote catalog
API. -/
structure ApiRarity where
  name : String
  color : String
  deriving Repr, DecidableEq

/-- One raw skin record as returned by the remote catalog API.  Optional
fields model properties that may be `undefined` on the JS object. -/
structure ApiSkin where
  id : String
  name : Option String
  description : Option String
  weapon : Option ApiNamed
  category : Option ApiNamed
  pattern : Option ApiNamed
  min_float : Option ℚ
  max_float : Option ℚ
  rarity : Option ApiRarity
  image : Option String
  team : Option ApiNamed
  wears : Option (List ApiNamed)
  stattrak : Option Bool
  souvenir : Option Bool
  crates : Option (List ApiNamed)
  collections : Option (List ApiNamed)
  deriving Repr, DecidableEq

/-- One processed item record as built by `syncFromAPI`'s `processedItems`
map, i.e. the argument shape handed to `insertItems`. -/
structure IncomingItem where
  _id : Option String
  id : String
  name : String
  description : String
  weapon : String
  weaponName : String
  category : String
  categoryName : String
  pattern : String
  patternName : String
  min_float : ℚ
  max_float : ℚ
  rarity : String
  rarityName : String
  rarity_color : String
  rarityColor : String
  image : String
  team : String
  wears : List ApiNamed
  availableWears : List String
  stattrak : Bool
  souvenir : Bool
  crates : List ApiNamed
  crateNames : List String
  collections : List ApiNamed
  collectionNames : List String
  isFavorite : Bool
  createdAt : Option ℤ
  deriving Repr, DecidableEq

/-- The `processedItems` mapping inside `syncFromAPI`: flatten one raw API
skin into the record passed to `insertItems`.  The JS record sets no
`isFavorite` and no `createdAt` field (both `undefined`, hence falsy). -/
def processSkin (skin : ApiSkin) : IncomingItem :=
  let weaponName := jsOrStr (skin.weapon.map ApiNamed.name) ""
  let category :=
    if weaponName ≠ "" then determineCategory weaponName
    else jsOrStr (skin.category.map ApiNamed.name) "Other"
  let rarityName := jsOrStr (skin.rarity.map ApiRarity.name) ""
  let rarityColor := jsOrStr (skin.rarity.map ApiRarity.color) ""
  { _id := some skin.id
    id := skin.id
    name := jsOrStr skin.name "Unknown"
    description := jsOrStr skin.description ""
    weapon := weaponName
    weaponName := weaponName
    category := category
    categoryName := category
    pattern := jsOrStr (skin.pattern.map ApiNamed.name) ""
    patternName := jsOrStr (skin.pattern.map ApiNamed.name) ""
    min_float := jsOrQ skin.min_float 0
    max_float := jsOrQ skin.max_float 1
    rarity := rarityName
    rarityName := rarityName
    rarity_color := rarityColor
    rarityColor := rarityColor
    image := jsOrStr skin.image ""
    team := jsOrStr (skin.team.map ApiNamed.name) ""
    wears := skin.wears.getD []
    availableWears := (skin.wears.map (List.map ApiNamed.name)).getD []
    stattrak := skin.stattrak.getD false
    souvenir := skin.souvenir.getD false
    crates := skin.crates.getD []
    crateNames := (skin.crates.map (List.map ApiNamed.name)).getD []
    collections := skin.collections.getD []
    collectionNames := (skin.collections.map (List.map ApiNamed.name)).getD []
    isFavorite := false
    createdAt := none }

/-! ## Catalog Store (`items` table) -/

/-- One stored row of the `items` table, per the column list of the
29-column `INSERT OR REPLACE` in the first revision of
`operations.js::insertItems`.  The JSON-serialized list columns are kept as
the lists they serialize. -/
structure ItemRow where
  id : String
  _id : String
  name : String
  description : String
  weapon : String
  weaponName : String
  category : String
  categoryName : String
  pattern : String
  patternName : String
  min_float : ℚ
  max_float : ℚ
  rarity : String
  rarityName : String
  rarity_color : String
  rarityColor : String
  image : String
  team : String
  isFavorite : Bool
  stattrak : Bool
  souvenir : Bool
  wears : List ApiNamed
  availableWears : List String
  crates : List ApiNamed
  crateNames : List String
  collections : List ApiNamed
  collectionNames : List String
  createdAt : ℤ
  updatedAt : ℤ
  deriving Repr, DecidableEq

/-- The `items` table: rows in insertion order; `id` is the primary key. -/
abbrev ItemTable := List ItemRow

/-- `SELECT … WHERE pk = ?` on an association table with primary-key
projection `pk`: the first (and, under the key constraint, only) matching
row. -/
def sqlLookup {α : Type} (pk : α → String) : List α → String → Option α
  | [], _ => none
  | x :: xs, k => if pk x = k then some x else sqlLookup pk xs k

/-- `INSERT OR REPLACE` on an association table keyed by `pk`: if a row
with the same key exists it is replaced, otherwise the new row is
appended. -/
def sqlUpsert {α : Type} (pk : α → String) (tbl : List α) (r : α) : List α :=
  if (sqlLookup pk tbl (pk r)).isSome then
    tbl.map (fun x => if pk x = pk r then r else x)
  else
    tbl ++ [r]

/-- `SELECT * FROM items WHERE id = ?`. -/
def lookupItem (tbl : ItemTable) (key : String) : Option ItemRow :=
  sqlLookup ItemRow.id tbl key

/-- `INSERT OR REPLACE INTO items`, keyed by the primary key `id`. -/
def upsertItem (tbl : ItemTable) (r : ItemRow) : ItemTable :=
  sqlUpsert ItemRow.id tbl r

/-- The non-favorite column values of the row written for `item`: the
`VALUES` list of the first-revision `insertItems`, with each JS
`item.x || default` made explicit.  `isFavorite` is filled with the
`COALESCE` result separately in `mkItemRow`. -/
def itemRowFields (now : ℤ) (item : IncomingItem) : ItemRow :=
  { id := item.id
    _id := jsOrStr item._id item.id
    name := item.name
    description := item.description
    weapon := item.weapon
    weaponName := jsOrStr (some item.weaponName) item.weapon
    category := item.category
    categoryName := jsOrStr (some item.categoryName) item.category
    pattern := item.pattern
    patternName := jsOrStr (some item.patternName) item.pattern
    min_float := jsOrQ (some item.min_float) 0
    max_float := jsOrQ (some item.max_float) 1
    rarity := item.rarity
    rarityName := jsOrStr (some item.rarityName) item.rarity
    rarity_color := item.rarity_color
    rarityColor := jsOrStr (some item.rarityColor) item.rarity_color
    image := item.image
    team := item.team
    isFavorite := item.isFavorite
    stattrak := item.stattrak
    souvenir := item.souvenir
    wears := item.wears
    availableWears := item.availableWears
    crates := item.crates
    crateNames := item.crateNames
    collections := item.collections
    collectionNames := item.collectionNames
    createdAt := item.createdAt.getD now
    updatedAt := now }

/-- The full row written for `item` against the current table state:
`COALESCE((SELECT isFavorite FROM items WHERE id = ?), item.isFavorite)`
carries an existing row's favorite flag forward and falls back to the
incoming record's flag for a new row. -/
def mkItemRow (tbl : ItemTable) (now : ℤ) (item : IncomingItem) : ItemRow :=
  { itemRowFields now item with
    isFavorite :=
      match lookupItem tbl item.id with
      | some existing => existing.isFavorite
      | none => item.isFavorite }

/-- `insertItems` (first revision of `operations.js`, lines 78-134): a
sequential favorite-preserving upsert of every incoming record. -/
def insertItems (now : ℤ) (items : List IncomingItem) (tbl : ItemTable) :
    ItemTable :=
  items.foldl (fun t item => upsertItem t (mkItemRow t now item)) tbl

/-- The row written by the second (legacy) revision of `insertItems`
(`operations.js` lines 390-422): a 14-column plain `INSERT` that takes
`isFavorite` directly from the incoming record.  Columns this revision does
not write are filled with their schema-default shapes. -/
def legacyItemRow (now : ℤ) (item : IncomingItem) : ItemRow :=
  { itemRowFields now item with
    _id := item.id
    weaponName := ""
    categoryName := ""
    patternName := ""
    rarityName := ""
    rarityColor := ""
    isFavorite := item.isFavorite
    stattrak := false
    souvenir := false
    wears := []
    availableWears := []
    crates := []
    crateNames := []
    collections := []
    collectionNames := []
    updatedAt := now }

/-- `insertItems` (second, legacy revision, lines 390-422): `DELETE FROM
items` followed by a plain insert of every incoming record. -/
def insertItemsLegacy (now : ℤ) (items : List IncomingItem)
    (_tbl : ItemTable) : ItemTable :=
  items.map (legacyItemRow now)

/-! ## Price Cache (`price_data`), History Log (`price_history`), metadata -/

/-- The per-key value object of a fetched price map (`priceInfo`).  Optional
fields model properties that may be `undefined` on the JS object. -/
structure PriceInfo where
  price : Option ℚ
  min : Option ℚ
  avg : Option ℚ
  max : Option ℚ
  median : Option ℚ
  volume : Option ℚ
  qty : Option ℚ
  deriving Repr, DecidableEq

/-- A fetched price map, `Object.entries` order: list of
`(market_hash_name, priceInfo)` pairs (object keys are unique). -/
abbrev PriceMap := List (String × PriceInfo)

/-- One row of the `price_data` table (current-price cache);
`market_hash_name` is the primary key. -/
structure PriceRow where
  market_hash_name : String
  price : ℚ
  avg : ℚ
  median : ℚ
  volume : ℚ
  lastUpdated : ℤ
  deriving Repr, DecidableEq

abbrev PriceTable := List PriceRow

/-- One row of the append-only `price_history` table.  The `date` column is
the ISO rendering of `timestamp` and is omitted as derived. -/
structure HistRow where
  market_hash_name : String
  price : ℚ
  timestamp : ℤ
  deriving Repr, DecidableEq

abbrev HistTable := List HistRow

/-- The `app_metadata` key/value table; the values written by the code under
study are `Date.now()` timestamps. -/
abbrev MetaTable := List (String × ℤ)

/-- The row `savePriceData` writes for one `[marketHashName, priceInfo]`
entry: `price := priceInfo.price || priceInfo.avg || 0`, the remaining
stats defaulted to `0`. -/
def mkPriceRow (now : ℤ) (key : String) (pi : PriceInfo) : PriceRow :=
  { market_hash_name := key
    price := jsOrQ pi.price (jsOrQ pi.avg 0)
    avg := jsOrQ pi.avg 0
    median := jsOrQ pi.median 0
    volume := jsOrQ pi.volume 0
    lastUpdated := now }

/-- `INSERT OR REPLACE` into `price_data`, keyed by `market_hash_name`. -/
def upsertPrice (tbl : PriceTable) (r : PriceRow) : PriceTable :=
  sqlUpsert PriceRow.market_hash_name tbl r

/-- `savePriceData`: upsert one `price_data` row per entry of the fetched
price map. -/
def savePriceData (now : ℤ) (priceData : PriceMap) (tbl : PriceTable) :
    PriceTable :=
  priceData.foldl (fun t e => upsertPrice t (mkPriceRow now e.1 e.2)) tbl

/-- `getPriceData`, looked up at one key: the stored row for that
market-hash name, `none` when the cache has no such row (the JS object
built from `SELECT * FROM price_data` has no such property). -/
def getPriceData (tbl : PriceTable) (key : String) : Option PriceRow :=
  sqlLookup PriceRow.market_hash_name tbl key

/-- `savePriceHistory`: append one `price_history` row per entry whose
effective price `priceInfo.price || priceInfo.avg || 0` is strictly
positive; every other entry is skipped. -/
def savePriceHistory (now : ℤ) (priceData : PriceMap) (hist : HistTable) :
    HistTable :=
  hist ++ priceData.filterMap (fun e =>
    if jsOrQ e.2.price (jsOrQ e.2.avg 0) > 0 then
      some { market_hash_name := e.1
             price := jsOrQ e.2.price (jsOrQ e.2.avg 0)
             timestamp := now }
    else none)

/-- `cleanOldPriceHistory`: `DELETE FROM price_history WHERE timestamp < ?`
with the cutoff `Date.now() - daysToKeep * 24 * 60 * 60 * 1000`. -/
def cleanOldPriceHistory (now : ℤ) (daysToKeep : ℤ) (hist : HistTable) :
    HistTable :=
  hist.filter (fun r => !(r.timestamp < now - daysToKeep * 24 * 60 * 60 * 1000))

/-- `setMetadata`: `INSERT OR REPLACE` into `app_metadata` keyed by `key`. -/
def setMetadata (tbl : MetaTable) (key : String) (value : ℤ) : MetaTable :=
  sqlUpsert Prod.fst tbl (key, value)

/-- `getMetadata`: stored value for `key`, `null` when absent. -/
def getMetadata (tbl : MetaTable) (key : String) : Option ℤ :=
  (sqlLookup Prod.fst tbl key).map Prod.snd

/-! ## Remote price fetch (`priceService.js::fetchPriceData`) -/

/-- One entry of the CSFloat price-list response body. -/
structure PriceListing where
  market_hash_name : String
  min_price : ℚ
  qty : ℚ
  deriving Repr, DecidableEq

/-- Outcome of the HTTP request `fetchPriceData` performs: the fetch itself
may reject, or a response arrives with an ok/not-ok status and a body. -/
inductive HttpResult where
  | netError
  | resp (ok : Bool) (body : List PriceListing)
  deriving Repr, DecidableEq

/-- The `try` block of `fetchPriceData`: throws on a rejected fetch and on a
non-OK status, otherwise builds the price map (cents to dollars, all four
price stats from `min_price`). -/
def fetchPriceDataBody : HttpResult → Except String PriceMap
  | .netError => .error "network request failed"
  | .resp ok body =>
    if !ok then .error "CSGOFloat API error"
    else .ok (body.map (fun l =>
      (l.market_hash_name,
       { price := some (l.min_price / 100)
         min := some (l.min_price / 100)
         avg := some (l.min_price / 100)
         max := some (l.min_price / 100)
         median := none
         volume := none
         qty := some l.qty })))

/-- `fetchPriceData`: the whole body is wrapped in `try`/`catch` and the
`catch` returns `null`, so every failure becomes `none` and no exception
escapes. -/
def fetchPriceData (r : HttpResult) : Option PriceMap :=
  match fetchPriceDataBody r with
  | .ok m => some m
  | .error _ => none

/-! ## The provider's durable state and `loadPrices` -/

/-- The durable SQLite state owned by the subsystem. -/
structure DBState where
  items : ItemTable
  priceData : PriceTable
  priceHistory : HistTable
  metadata : MetaTable
  deriving Repr, DecidableEq

/-- The empty database, as created by `initDatabase`. -/
def emptyDB : DBState := ⟨[], [], [], []⟩

/-- A best-effort dispatch of the full price snapshot to the Supabase cloud
replica (`savePriceSnapshotToSupabase`); its failure is swallowed by
`loadPrices`, so only the dispatch itself is recorded. -/
structure CloudDispatch where
  prices : PriceMap
  deriving Repr, DecidableEq

/-- One `loadPrices` cycle of the SQLite `DataContext` provider, restricted
to its durable effects.  Offline (`!isConnected`) the cycle only reads the
cache; online it fetches, and on a `null` fetch result (`if (prices)`)
nothing happens.  On success it runs `savePriceData`, `savePriceHistory`,
`setMetadata("lastPriceUpdate")`, `cleanOldPriceHistory(30)` and, when
Supabase is configured, dispatches the snapshot to the cloud replica. -/
def loadPrices (connected configured : Bool) (r : HttpResult) (now : ℤ)
    (st : DBState) : DBState × List CloudDispatch :=
  if !connected then (st, [])
  else
    match fetchPriceData r with
    | none => (st, [])
    | some prices =>
      let st1 := { st with priceData := savePriceData now prices st.priceData }
      let st2 :=
        { st1 with priceHistory := savePriceHistory now prices st1.priceHistory }
      let st3 :=
        { st2 with metadata := setMetadata st2.metadata "lastPriceUpdate" now }
      let st4 :=
        { st3 with priceHistory := cleanOldPriceHistory now 30 st3.priceHistory }
      (st4, if configured then [⟨prices⟩] else [])

/-- The inputs of one scheduled poll cycle. -/
structure Cycle where
  connected : Bool
  configured : Bool
  resp : HttpResult
  now : ℤ
  deriving Repr, DecidableEq

/-- Run a sequence of poll cycles (durable state only). -/
def runCycles (cycles : List Cycle) (st : DBState) : DBState :=
  cycles.foldl
    (fun s c => (loadPrices c.connected c.configured c.resp c.now s).1) st

/-! ## Catalog sync (`DataContext::syncFromAPI`) -/

/-- The error taxonomy of `syncFromAPI`, named as in the specification:
`noInternet` is the connectivity-check throw, `emptyRemoteResponse` the
`"No data received from API"` throw on a null or empty payload. -/
inductive SyncError where
  | noInternet
  | emptyRemoteResponse
  deriving Repr, DecidableEq

/-- `syncFromAPI` (durable effects): check connectivity, fetch the catalog
(`apiData`, `none` modelling a `null` payload), fail on a null or empty
payload before any write, otherwise process every record, upsert all of
them via `insertItems`, record `lastSync`, and return the record count. -/
def syncFromAPI (connected : Bool) (apiData : Option (List ApiSkin))
    (now : ℤ) (st : DBState) : DBState × Except SyncError ℕ :=
  if !connected then (st, .error .noInternet)
  else
    match apiData with
    | none => (st, .error .emptyRemoteResponse)
    | some l =>
      if l.length = 0 then (st, .error .emptyRemoteResponse)
      else
        let processed := l.map processSkin
        let st1 := { st with items := insertItems now processed st.items }
        let st2 := { st1 with metadata := setMetadata st1.metadata "lastSync" now }
        (st2, .ok processed.length)

/-! ## History Query Resolver
(`supabaseService.js::getSkinPriceHistoryFromSupabase` and
`PriceChart.js::loadPriceHistory`) -/

/-- One point of a price-history series (`{date, timestamp, price}`; `date`
is derived from `timestamp` and omitted). -/
structure HistPoint where
  timestamp : ℤ
  price : ℚ
  deriving Repr, DecidableEq

/-- One row returned by the optimized `get_price_history` RPC. -/
structure RpcRow where
  timestamp : ℤ
  price : ℚ
  deriving Repr, DecidableEq

/-- Outcome of the `supabase.rpc("get_price_history", …)` call: a usable
reply (`error` null and `data` non-null), an unusable reply, or a rejection
(caught by the inner `catch`); in the last two cases control falls through
to the fallback query. -/
inductive RpcOutcome where
  | ok (rows : List RpcRow)
  | failed
  | thrown
  deriving Repr, DecidableEq

/-- One stored cloud snapshot row (`timestamp`, `prices` JSONB). -/
structure CloudSnapshot where
  timestamp : ℤ
  prices : List (String × PriceInfo)
  deriving Repr, DecidableEq

/-- Outcome of the fallback `price_snapshots` range query raced against the
15-second timeout: data, a Supabase error (thrown), or the timeout
rejection (thrown). -/
inductive QueryOutcome where
  | ok (snaps : List CloudSnapshot)
  | err
  | timeout
  deriving Repr, DecidableEq

/-- The `try` block of `getSkinPriceHistoryFromSupabase`: use the RPC reply
when usable; otherwise run the fallback range query, whose error or
15-second timeout is thrown; on data, keep per snapshot the entry for the
requested name with effective price `price || avg || 0`, dropping missing
entries and non-positive prices. -/
def supabaseHistoryTry (rpc : RpcOutcome) (q : QueryOutcome)
    (marketHashName : String) : Except String (List HistPoint) :=
  match rpc with
  | .ok rows => .ok (rows.map (fun r => ⟨r.timestamp, r.price⟩))
  | _ =>
    match q with
    | .timeout => .error "Query timeout after 15 seconds"
    | .err => .error "supabase query error"
    | .ok snaps => .ok (snaps.filterMap (fun s =>
        match s.prices.find? (fun e => e.1 == marketHashName) with
        | none => none
        | some e =>
          let price := jsOrQ e.2.price (jsOrQ e.2.avg 0)
          if price > 0 then some ⟨s.timestamp, price⟩ else none))

/-- `getSkinPriceHistoryFromSupabase`: `[]` when Supabase is not configured;
otherwise the `try` block, whose every failure is caught and turned into
`[]` ("Return empty array instead of throwing").  The function therefore
never throws. -/
def getSkinPriceHistoryFromSupabase (configured : Bool) (rpc : RpcOutcome)
    (q : QueryOutcome) (marketHashName : String) : List HistPoint :=
  if !configured then []
  else
    match supabaseHistoryTry rpc q marketHashName with
    | .ok h => h
    | .error _ => []

/-- Modelled from the spec: the local reader `getSkinPriceHistory` of
`priceHistoryService.js` is not among the provided sources (only its
callers are).  Per the spec's History Query Resolver, it reads the local
History Log for the requested market key filtered by the same time window
(30 days). -/
def getSkinPriceHistoryLocal (log : HistTable) (marketHashName : String)
    (now : ℤ) : List HistPoint :=
  (log.filter (fun r =>
      r.market_hash_name == marketHashName &&
      !(r.timestamp < now - 30 * 24 * 60 * 60 * 1000))).map
    (fun r => ⟨r.timestamp, r.price⟩)

/-- The chart period selector (7, 14 or 30 days). -/
inductive Period where
  | d7
  | d14
  | d30
  deriving Repr, DecidableEq

/-- `periodMs[period]` from `loadPriceHistory`. -/
def periodMs : Period → ℤ
  | .d7 => 7 * 24 * 60 * 60 * 1000
  | .d14 => 14 * 24 * 60 * 60 * 1000
  | .d30 => 30 * 24 * 60 * 60 * 1000

/-- The `try`/`catch` around the cloud read in
`PriceChart.js::loadPriceHistory`: the local series is read only in the
`catch` branch, i.e. only when the cloud call throws. -/
def resolveChartHistory (cloudCall : Except String (List HistPoint))
    (localSeries : List HistPoint) : List HistPoint :=
  match cloudCall with
  | .ok h => h
  | .error _ => localSeries

/-- The series `loadPriceHistory` displays: the resolver's result filtered
by the selected period.  The cloud call is passed as `.ok …` because
`getSkinPriceHistoryFromSupabase` catches internally and never throws, so
the `catch` branch of `loadPriceHistory` (the local fallback) is
unreachable. -/
def loadPriceHistorySeries (configured : Bool) (rpc : RpcOutcome)
    (q : QueryOutcome) (marketHashName : String) (log : HistTable)
    (period : Period) (now : ℤ) : List HistPoint :=
  (resolveChartHistory
      (.ok (getSkinPriceHistoryFromSupabase configured rpc q marketHashName))
      (getSkinPriceHistoryLocal log marketHashName now)).filter
    (fun p => now - p.timestamp ≤ periodMs period)

/-! ## Overlapping poll cycles -/

/-- The externally visible steps of one successful `loadPrices` poll cycle,
in program order.  The provider holds no in-flight flag, so no step is
conditioned on another cycle being active.  Each durable write carries the
clock value it reads when it executes: `savePriceData`,
`savePriceHistory`, `setMetadata` and `cleanOldPriceHistory` each call
`Date.now()`/`new Date()` inside their own body, so the stamp belongs to
the step, not to the cycle that issued it. -/
inductive PollAction where
  | remoteFetch
  | writePriceData (prices : PriceMap) (now : ℤ)
  | writeHistory (prices : PriceMap) (now : ℤ)
  | writeMeta (now : ℤ)
  | pruneOld (now : ℤ)
  deriving Repr, DecidableEq

/-- The straight-line step sequence of one successful `loadPrices` cycle:
fetch, `savePriceData`, `savePriceHistory`, `setMetadata
("lastPriceUpdate")`, `cleanOldPriceHistory(30)`.  The four write stamps
are free parameters — each is the clock value the corresponding statement
reads when it eventually executes, so a cycle delayed by interleaving
carries later stamps, not the cycle-start time. -/
def pollCycleActionsAt (prices : PriceMap) (tpd th tm tp : ℤ) :
    List PollAction :=
  [.remoteFetch, .writePriceData prices tpd, .writeHistory prices th,
   .writeMeta tm, .pruneOld tp]

/-- Durable effect of one poll step. -/
def applyPollAction (st : DBState) : PollAction → DBState
  | .remoteFetch => st
  | .writePriceData p now =>
      { st with priceData := savePriceData now p st.priceData }
  | .writeHistory p now =>
      { st with priceHistory := savePriceHistory now p st.priceHistory }
  | .writeMeta now =>
      { st with metadata := setMetadata st.metadata "lastPriceUpdate" now }
  | .pruneOld now =>
      { st with priceHistory := cleanOldPriceHistory now 30 st.priceHistory }

/-- Run a step trace against the database. -/
def runActions (tr : List PollAction) (st : DBState) : DBState :=
  tr.foldl applyPollAction st

/-- `Interleaving l r t`: trace `t` is an interleaving of the two
invocation traces `l` and `r` — each invocation's steps appear in `t` in
their own order.  Every schedule of two concurrently running cycles on the
single JS task runner yields such a trace. -/
inductive Interleaving :
    List PollAction → List PollAction → List PollAction → Prop where
  | nil : Interleaving [] [] []
  | left {a : PollAction} {l r t : List PollAction} :
      Interleaving l r t → Interleaving (a :: l) r (a :: t)
  | right {a : PollAction} {l r t : List PollAction} :
      Interleaving l r t → Interleaving l (a :: r) (a :: t)

/-- Is this step a remote fetch? -/
def isRemoteFetch : PollAction → Bool
  | .remoteFetch => true
  | _ => false

/-- Number of remote fetches performed in a trace. -/
def countFetches (tr : List PollAction) : ℕ :=
  tr.countP isRemoteFetch

/-- A sequence of `savePriceHistory` calls, each with its own payload and
timestamp, applied in order. -/
def runSaveHistory (calls : List (PriceMap × ℤ)) (hist : HistTable) :
    HistTable :=
  calls.foldl (fun h c => savePriceHistory c.2 c.1 h) hist

/-- The favorite flag for `id` is set in the Catalog Store. -/
def FavTrue (tbl : ItemTable) (id : String) : Prop :=
  ∃ r, lookupItem tbl id = some r ∧ r.isFavorite = true

/-- A poll cycle that would write a `price_data` row for `key`: it runs
online, its fetch succeeds, and the fetched map mentions `key`. -/
def CycleWritesKey (c : Cycle) (key : String) : Prop :=
  c.connected = true ∧
  ∃ m, fetchPriceData c.resp = some m ∧ key ∈ m.map Prod.fst

/-! ## Concrete inputs used in scenario and counterexample theorems -/

/-- The market key of the History-Query-Resolver examples. -/
def c2Key : String := "AK-47 | Redline (Field-Tested)"

/-- A local History Log holding two recent points for `c2Key`. -/
def c2LocalLog : HistTable :=
  [⟨c2Key, 5, 1699990000000⟩, ⟨c2Key, 6, 1699995000000⟩]

/-- A one-key price map used in the overlapping-cycle examples. -/
def overlapPrices : PriceMap :=
  [("A", ⟨some 5, none, none, none, none, none, none⟩)]

/-- A schedule of two overlapping poll cycles: the first cycle fetches,
then the second cycle runs to completion (its writes reading the clock
around 1700000100000), then the first cycle's delayed writes land, reading
the then-current, later clock around 1700000200000.  Stamps are
non-decreasing along the schedule because each write reads `Date.now()`
when it executes. -/
def overlapTrace : List PollAction :=
  [.remoteFetch, .remoteFetch,
   .writePriceData overlapPrices 1700000100000,
   .writeHistory overlapPrices 1700000100001,
   .writeMeta 1700000100002, .pruneOld 1700000100003,
   .writePriceData overlapPrices 1700000200000,
   .writeHistory overlapPrices 1700000200001,
   .writeMeta 1700000200002, .pruneOld 1700000200003]

/-! ## Association-table lemmas -/

theorem sqlLookup_map_replace {α : Type} (pk : α → String) (r : α)
    (tbl : List α) :
    sqlLookup pk (tbl.map (fun x => if pk x = pk r then r else x)) (pk r) =
      (sqlLookup pk tbl (pk r)).map (fun _ => r) := by
  induction tbl with
  | nil => rfl
  | cons x xs ih =>
    by_cases hx : pk x = pk r
    · simp [sqlLookup, hx]
    · simp [sqlLookup, hx, ih]

theorem sqlLookup_map_replace_ne {α : Type} (pk : α → String) (r : α)
    (k : String) (h : pk r ≠ k) (tbl : List α) :
    sqlLookup pk (tbl.map (fun x => if pk x = pk r then r else x)) k =
      sqlLookup pk tbl k := by
  induction tbl with
  | nil => rfl
  | cons x xs ih =>
    by_cases hx : pk x = pk r
    · simp [sqlLookup, hx, h, ih]
    · simp [sqlLookup, hx, ih]

theorem sqlLookup_append_single_ne {α : Type} (pk : α → String)
    (tbl : List α) (r : α) (k : String) (h : pk r ≠ k) :
    sqlLookup pk (tbl ++ [r]) k = sqlLookup pk tbl k := by
  induction tbl with
  | nil => simp [sqlLookup, h]
  | cons x xs ih =>
    by_cases hx : pk x = k <;> simp [sqlLookup, hx, ih]

theorem sqlLookup_append_single_self {α : Type} (pk : α → String)
    (tbl : List α) (r : α) (h : sqlLookup pk tbl (pk r) = none) :
    sqlLookup pk (tbl ++ [r]) (pk r) = some r := by
  induction tbl with
  | nil => simp [sqlLookup]
  | cons x xs ih =>
    by_cases hx : pk x = pk r
    · simp [sqlLookup, hx] at h
    · simp only [sqlLookup, hx] at h
      simp [sqlLookup, hx, ih h]

theorem sqlLookup_upsert_self {α : Type} (pk : α → String) (tbl : List α)
    (r : α) : sqlLookup pk (sqlUpsert pk tbl r) (pk r) = some r := by
  unfold sqlUpsert
  by_cases h : (sqlLookup pk tbl (pk r)).isSome
  · rw [if_pos h, sqlLookup_map_replace]
    obtain ⟨a, ha⟩ := Option.isSome_iff_exists.mp h
    rw [ha]
    rfl
  · rw [if_neg h]
    exact sqlLookup_append_single_self pk tbl r
      (Option.not_isSome_iff_eq_none.mp h)

theorem sqlLookup_upsert_ne {α : Type} (pk : α → String) (tbl : List α)
    (r : α) (k : String) (h : pk r ≠ k) :
    sqlLookup pk (sqlUpsert pk tbl r) k = sqlLookup pk tbl k := by
  unfold sqlUpsert
  by_cases hs : (sqlLookup pk tbl (pk r)).isSome
  · rw [if_pos hs]
    exact sqlLookup_map_replace_ne pk r k h tbl
  · rw [if_neg hs]
    exact sqlLookup_append_single_ne pk tbl r k h

theorem sqlUpsert_length {α : Type} (pk : α → String) (tbl : List α)
    (r : α) (h : (sqlLookup pk tbl (pk r)).isSome) :
    (sqlUpsert pk tbl r).length = tbl.length := by
  unfold sqlUpsert
  rw [if_pos h]
  exact List.length_map _ _

theorem sqlLookup_upsert_isSome {α : Type} (pk : α → String) (tbl : List α)
    (r : α) (k : String) (h : (sqlLookup pk tbl k).isSome) :
    (sqlLookup pk (sqlUpsert pk tbl r) k).isSome := by
  by_cases hk : pk r = k
  · rw [← hk] at h ⊢
    rw [sqlLookup_upsert_self]
    rfl
  · rw [sqlLookup_upsert_ne pk tbl r k hk]
    exact h

/-! ## Catalog-sync lemmas -/

theorem mkItemRow_id (tbl : ItemTable) (now : ℤ) (item : IncomingItem) :
    (mkItemRow tbl now item).id = item.id := rfl

theorem insertItems_cons (now : ℤ) (q : IncomingItem)
    (rest : List IncomingItem) (tbl : ItemTable) :
    insertItems now (q :: rest) tbl =
      insertItems now rest (upsertItem tbl (mkItemRow tbl now q)) := rfl

theorem insertItems_append (now : ℤ) (l₁ l₂ : List IncomingItem)
    (tbl : ItemTable) :
    insertItems now (l₁ ++ l₂) tbl = insertItems now l₂ (insertItems now l₁ tbl) := by
  simp [insertItems, List.foldl_append]

theorem lookupItem_insertItems_isSome (now : ℤ) (items : List IncomingItem)
    (tbl : ItemTable) (k : String) (h : (lookupItem tbl k).isSome) :
    (lookupItem (insertItems now items tbl) k).isSome := by
  induction items generalizing tbl with
  | nil => exact h
  | cons q rest ih =>
    rw [insertItems_cons]
    exact ih _ (sqlLookup_upsert_isSome ItemRow.id tbl _ k h)

theorem lookupItem_insertItems_mem (now : ℤ) (items : List IncomingItem)
    (tbl : ItemTable) (p : IncomingItem) (hp : p ∈ items) :
    (lookupItem (insertItems now items tbl) p.id).isSome := by
  induction items generalizing tbl with
  | nil => cases hp
  | cons q rest ih =>
    rw [insertItems_cons]
    rcases List.mem_cons.mp hp with rfl | hmem
    · apply lookupItem_insertItems_isSome
      have hself := sqlLookup_upsert_self ItemRow.id tbl (mkItemRow tbl now p)
      rw [mkItemRow_id] at hself
      unfold lookupItem upsertItem
      rw [hself]
      rfl
    · exact ih _ hmem

theorem insertItems_length (now : ℤ) (items : List IncomingItem)
    (tbl : ItemTable) (h : ∀ p ∈ items, (lookupItem tbl p.id).isSome) :
    (insertItems now items tbl).length = tbl.length := by
  induction items generalizing tbl with
  | nil => rfl
  | cons q rest ih =>
    rw [insertItems_cons]
    have hq := h q (List.mem_cons_self q rest)
    have hlen : (upsertItem tbl (mkItemRow tbl now q)).length = tbl.length := by
      apply sqlUpsert_length
      rw [mkItemRow_id]
      exact hq
    calc (insertItems now rest (upsertItem tbl (mkItemRow tbl now q))).length
        = (upsertItem tbl (mkItemRow tbl now q)).length :=
          ih _ (fun p hp => sqlLookup_upsert_isSome ItemRow.id tbl _ p.id
            (h p (List.mem_cons_of_mem q hp)))
      _ = tbl.length := hlen

theorem lookupItem_upsert_self (tbl : ItemTable) (r : ItemRow) :
    lookupItem (upsertItem tbl r) r.id = some r :=
  sqlLookup_upsert_self ItemRow.id tbl r

theorem lookupItem_upsert_ne (tbl : ItemTable) (r : ItemRow) (k : String)
    (h : r.id ≠ k) : lookupItem (upsertItem tbl r) k = lookupItem tbl k :=
  sqlLookup_upsert_ne ItemRow.id tbl r k h

theorem lookupItem_insertItems_ne (now : ℤ) (items : List IncomingItem)
    (tbl : ItemTable) (id : String) (h : ∀ q ∈ items, q.id ≠ id) :
    lookupItem (insertItems now items tbl) id = lookupItem tbl id := by
  induction items generalizing tbl with
  | nil => rfl
  | cons q rest ih =>
    rw [insertItems_cons, ih _ (fun p hp => h p (List.mem_cons_of_mem q hp))]
    exact lookupItem_upsert_ne tbl _ id
      (by rw [mkItemRow_id]; exact h q (List.mem_cons_self q rest))

theorem mkItemRow_favTrue (tbl : ItemTable) (now : ℤ) (item : IncomingItem)
    (id : String) (he : item.id = id) (h : FavTrue tbl id) :
    mkItemRow tbl now item =
      { itemRowFields now item with isFavorite := true } := by
  obtain ⟨r, hr, hfav⟩ := h
  have hlook : lookupItem tbl item.id = some r := by rw [he]; exact hr
  simp [mkItemRow, hlook, hfav]

theorem favTrue_upsert (tbl : ItemTable) (now : ℤ) (item : IncomingItem)
    (id : String) (h : FavTrue tbl id) :
    FavTrue (upsertItem tbl (mkItemRow tbl now item)) id := by
  by_cases he : item.id = id
  · refine ⟨{ itemRowFields now item with isFavorite := true }, ?_, rfl⟩
    rw [← mkItemRow_favTrue tbl now item id he h]
    have hself := lookupItem_upsert_self tbl (mkItemRow tbl now item)
    rw [mkItemRow_id, he] at hself
    exact hself
  · obtain ⟨r, hr, hfav⟩ := h
    refine ⟨r, ?_, hfav⟩
    rw [lookupItem_upsert_ne tbl _ id (by rw [mkItemRow_id]; exact he)]
    exact hr

theorem favTrue_insertItems (now : ℤ) (items : List IncomingItem)
    (tbl : ItemTable) (id : String) (h : FavTrue tbl id) :
    FavTrue (insertItems now items tbl) id := by
  induction items generalizing tbl with
  | nil => exact h
  | cons q rest ih =>
    rw [insertItems_cons]
    exact ih _ (favTrue_upsert tbl now q id h)

theorem syncFromAPI_none (now : ℤ) (st : DBState) :
    syncFromAPI true none now st = (st, .error .emptyRemoteResponse) := rfl

theorem syncFromAPI_nil (now : ℤ) (st : DBState) :
    syncFromAPI true (some []) now st = (st, .error .emptyRemoteResponse) := rfl

theorem syncFromAPI_success_items (l : List ApiSkin) (hl : ¬ l.length = 0)
    (now : ℤ) (st : DBState) :
    (syncFromAPI true (some l) now st).1.items =
      insertItems now (l.map processSkin) st.items := by
  simp [syncFromAPI, hl]

theorem syncFromAPI_success_count (l : List ApiSkin) (hl : ¬ l.length = 0)
    (now : ℤ) (st : DBState) :
    (syncFromAPI true (some l) now st).2 = .ok l.length := by
  simp [syncFromAPI, hl]

/-! ## Price-side lemmas -/

theorem getPriceData_upsert_ne (tbl : PriceTable) (r : PriceRow) (k : String)
    (h : r.market_hash_name ≠ k) :
    getPriceData (upsertPrice tbl r) k = getPriceData tbl k :=
  sqlLookup_upsert_ne PriceRow.market_hash_name tbl r k h

theorem savePriceData_cons (now : ℤ) (e : String × PriceInfo)
    (rest : PriceMap) (tbl : PriceTable) :
    savePriceData now (e :: rest) tbl =
      savePriceData now rest (upsertPrice tbl (mkPriceRow now e.1 e.2)) := rfl

theorem getPriceData_savePriceData_ne (now : ℤ) (payload : PriceMap)
    (tbl : PriceTable) (k : String) (h : ∀ e ∈ payload, e.1 ≠ k) :
    getPriceData (savePriceData now payload tbl) k = getPriceData tbl k := by
  induction payload generalizing tbl with
  | nil => rfl
  | cons e rest ih =>
    rw [savePriceData_cons, ih _ (fun p hp => h p (List.mem_cons_of_mem e hp))]
    exact getPriceData_upsert_ne tbl _ k (h e (List.mem_cons_self e rest))

theorem loadPrices_offline (cfg : Bool) (r : HttpResult) (now : ℤ)
    (st : DBState) : loadPrices false cfg r now st = (st, []) := rfl

theorem loadPrices_fetchFail (cfg : Bool) (r : HttpResult) (now : ℤ)
    (st : DBState) (h : fetchPriceData r = none) :
    loadPrices true cfg r now st = (st, []) := by
  simp [loadPrices, h]

theorem loadPrices_success_priceData (cfg : Bool) (r : HttpResult) (now : ℤ)
    (st : DBState) (m : PriceMap) (h : fetchPriceData r = some m) :
    (loadPrices true cfg r now st).1.priceData =
      savePriceData now m st.priceData := by
  simp [loadPrices, h]

theorem loadPrices_success_priceHistory (cfg : Bool) (r : HttpResult)
    (now : ℤ) (st : DBState) (m : PriceMap) (h : fetchPriceData r = some m) :
    (loadPrices true cfg r now st).1.priceHistory =
      cleanOldPriceHistory now 30 (savePriceHistory now m st.priceHistory) := by
  simp [loadPrices, h]

theorem runCycles_cons (c : Cycle) (rest : List Cycle) (st : DBState) :
    runCycles (c :: rest) st =
      runCycles rest (loadPrices c.connected c.configured c.resp c.now st).1 :=
  rfl

theorem getPriceData_loadPrices_ne (c : Cycle) (key : String) (st : DBState)
    (h : ¬ CycleWritesKey c key) :
    getPriceData ((loadPrices c.connected c.configured c.resp c.now st).1.priceData)
        key = getPriceData st.priceData key := by
  cases hc : c.connected with
  | false => simp [loadPrices]
  | true =>
    cases hf : fetchPriceData c.resp with
    | none => simp [loadPrices, hf]
    | some m =>
      have hkey : ∀ e ∈ m, e.1 ≠ key := by
        intro e he heq
        exact h ⟨hc, m, hf, by rw [← heq]; exact List.mem_map_of_mem Prod.fst he⟩
      rw [loadPrices_success_priceData _ _ _ _ _ hf]
      exact getPriceData_savePriceData_ne c.now m st.priceData key hkey

theorem getPriceData_runCycles_ne (key : String) (cycles : List Cycle)
    (st : DBState) (h : ∀ c ∈ cycles, ¬ CycleWritesKey c key) :
    getPriceData ((runCycles cycles st).priceData) key =
      getPriceData st.priceData key := by
  induction cycles generalizing st with
  | nil => rfl
  | cons c rest ih =>
    rw [runCycles_cons, ih _ (fun d hd => h d (List.mem_cons_of_mem c hd))]
    exact getPriceData_loadPrices_ne c key st (h c (List.mem_cons_self c rest))

theorem savePriceHistory_pos (now : ℤ) (payload : PriceMap)
    (hist : HistTable) (hh : ∀ r ∈ hist, 0 < r.price) :
    ∀ r ∈ savePriceHistory now payload hist, 0 < r.price := by
  intro r hr
  rcases List.mem_append.mp hr with h1 | h2
  · exact hh r h1
  · obtain ⟨e, he, hf⟩ := List.mem_filterMap.mp h2
    by_cases hp : jsOrQ e.2.price (jsOrQ e.2.avg 0) > 0
    · rw [if_pos hp] at hf
      obtain rfl := Option.some.inj hf
      exact hp
    · rw [if_neg hp] at hf
      cases hf

theorem runSaveHistory_pos (calls : List (PriceMap × ℤ)) (hist : HistTable)
    (hh : ∀ r ∈ hist, 0 < r.price) :
    ∀ r ∈ runSaveHistory calls hist, 0 < r.price := by
  induction calls generalizing hist with
  | nil => exact hh
  | cons c rest ih => exact ih _ (savePriceHistory_pos c.2 c.1 hist hh)

theorem cleanOldPriceHistory_bound (now : ℤ) (hist : HistTable)
    (r : HistRow) (hr : r ∈ cleanOldPriceHistory now 30 hist) :
    ¬(r.timestamp < now - 30 * 24 * 60 * 60 * 1000) := by
  have := (List.mem_filter.mp hr).2
  simpa using this

/-! ## Claim theorems -/

/-- Claim C1: for every item already present in the Catalog Store with
`isFavorite = true`, after `syncFromRemote()` (`syncFromAPI` followed by
`insertItems` over the full remote payload) the row with the same
identifier still has `isFavorite = true`; and when the payload contains a
record with that identifier (uniquely), every other field of the row is
exactly the one computed from the new payload record. -/
theorem favorite_preserving_catalog_sync (st : DBState)
    (apiData : Option (List ApiSkin)) (now : ℤ) (id : String) (r0 : ItemRow)
    (h0 : lookupItem st.items id = some r0) (hfav : r0.isFavorite = true) :
    (∃ r, lookupItem ((syncFromAPI true apiData now st).1.items) id = some r ∧
        r.isFavorite = true) ∧
    (∀ (l₁ : List ApiSkin) (skin : ApiSkin) (l₂ : List ApiSkin),
      apiData = some (l₁ ++ skin :: l₂) → skin.id = id →
      (∀ q ∈ l₂, q.id ≠ id) →
      lookupItem ((syncFromAPI true apiData now st).1.items) id =
        some { itemRowFields now (processSkin skin) with isFavorite := true }) := by
  have hstart : FavTrue st.items id := ⟨r0, h0, hfav⟩
  constructor
  · cases apiData with
    | none => exact ⟨r0, h0, hfav⟩
    | some l =>
      by_cases hl : l.length = 0
      · obtain rfl := List.length_eq_zero.mp hl
        exact ⟨r0, h0, hfav⟩
      · rw [syncFromAPI_success_items l hl now st]
        exact favTrue_insertItems now (l.map processSkin) st.items id hstart
  · rintro l₁ skin l₂ rfl hid hl₂
    have hl : ¬ (l₁ ++ skin :: l₂).length = 0 := by simp
    rw [syncFromAPI_success_items _ hl now st]
    rw [List.map_append, List.map_cons, insertItems_append, insertItems_cons]
    have hfavmid : FavTrue (insertItems now (l₁.map processSkin) st.items) id :=
      favTrue_insertItems now _ st.items id hstart
    have hpsid : (processSkin skin).id = id := hid
    rw [mkItemRow_favTrue _ now (processSkin skin) id hpsid hfavmid]
    rw [lookupItem_insertItems_ne now _ _ id (by
      intro q hq
      obtain ⟨q0, hq0, rfl⟩ := List.mem_map.mp hq
      exact hl₂ q0 hq0)]
    have hself := lookupItem_upsert_self
      (insertItems now (l₁.map processSkin) st.items)
      { itemRowFields now (processSkin skin) with isFavorite := true }
    have hkey : ({ itemRowFields now (processSkin skin) with
        isFavorite := true } : ItemRow).id = id := hpsid
    rw [hkey] at hself
    exact hself

/-- Witness for C1: a store holding a favorite row for `"X"` keeps the flag
set, and all other columns follow the fresh payload record, after a sync
whose payload carries `"X"` with new field values. -/
theorem favorite_preserving_catalog_sync_witness :
    (∃ r, lookupItem ((syncFromAPI true
        (some [⟨"X", some "AK-47 | Redline", some "new description", some ⟨"AK-47"⟩,
          none, none, none, none, some ⟨"Classified", "#8847ff"⟩, some "img2",
          none, none, some true, none, none, none⟩])
        1700000000000
        ⟨[⟨"X", "X", "old", "old", "AK-47", "AK-47", "Rifle", "Rifle", "", "",
            0, 1, "", "", "", "", "img1", "", true, false, false, [], [], [],
            [], [], [], 0, 0⟩], [], [], []⟩).1.items) "X" = some r ∧
      r.isFavorite = true) ∧
    lookupItem ((syncFromAPI true
        (some [⟨"X", some "AK-47 | Redline", some "new description", some ⟨"AK-47"⟩,
          none, none, none, none, some ⟨"Classified", "#8847ff"⟩, some "img2",
          none, none, some true, none, none, none⟩])
        1700000000000
        ⟨[⟨"X", "X", "old", "old", "AK-47", "AK-47", "Rifle", "Rifle", "", "",
            0, 1, "", "", "", "", "img1", "", true, false, false, [], [], [],
            [], [], [], 0, 0⟩], [], [], []⟩).1.items) "X" =
      some { itemRowFields 1700000000000
          (processSkin ⟨"X", some "AK-47 | Redline", some "new description",
            some ⟨"AK-47"⟩, none, none, none, none,
            some ⟨"Classified", "#8847ff"⟩, some "img2", none, none, some true,
            none, none, none⟩) with isFavorite := true } := by
  have h := favorite_preserving_catalog_sync
    ⟨[⟨"X", "X", "old", "old", "AK-47", "AK-47", "Rifle", "Rifle", "", "",
        0, 1, "", "", "", "", "img1", "", true, false, false, [], [], [],
        [], [], [], 0, 0⟩], [], [], []⟩
    (some [⟨"X", some "AK-47 | Redline", some "new description", some ⟨"AK-47"⟩,
      none, none, none, none, some ⟨"Classified", "#8847ff"⟩, some "img2",
      none, none, some true, none, none, none⟩])
    1700000000000 "X"
    ⟨"X", "X", "old", "old", "AK-47", "AK-47", "Rifle", "Rifle", "", "",
      0, 1, "", "", "", "", "img1", "", true, false, false, [], [], [],
      [], [], [], 0, 0⟩
    (by simp [lookupItem, sqlLookup]) rfl
  exact ⟨h.1, h.2 [] _ [] rfl rfl (by intro q hq; cases hq)⟩

/-- Claim C8: running `syncFromRemote()` twice consecutively with the
identical payload leaves the Catalog Store row count unchanged between the
first and the second run; the same holds for the legacy delete-and-reinsert
revision of `insertItems`, whose row count depends only on the payload. -/
theorem catalog_sync_idempotent_rowcount (apiData : Option (List ApiSkin))
    (now₁ now₂ : ℤ) (st : DBState) :
    ((syncFromAPI true apiData now₂
        (syncFromAPI true apiData now₁ st).1).1.items).length =
      ((syncFromAPI true apiData now₁ st).1.items).length ∧
    ∀ (items : List IncomingItem) (tbl₁ tbl₂ : ItemTable),
      (insertItemsLegacy now₂ items tbl₂).length =
        (insertItemsLegacy now₁ items tbl₁).length := by
  constructor
  · cases apiData with
    | none => rfl
    | some l =>
      by_cases hl : l.length = 0
      · obtain rfl := List.length_eq_zero.mp hl
        rfl
      · rw [syncFromAPI_success_items l hl now₂ _,
          syncFromAPI_success_items l hl now₁ st]
        exact insertItems_length now₂ (l.map processSkin) _
          (fun p hp => lookupItem_insertItems_mem now₁ _ st.items p hp)
  · intro items tbl₁ tbl₂
    simp [insertItemsLegacy]

/-- Claim C3: `savePriceHistory` never inserts a `price_history` row whose
effective price (`price`, else `avg`, else `0`) is not strictly positive:
one call preserves the all-positive invariant, and after any sequence of
calls starting from the empty table every stored row has `price > 0`. -/
theorem history_prices_strictly_positive :
    (∀ (now : ℤ) (payload : PriceMap) (hist : HistTable),
      (∀ r ∈ hist, 0 < r.price) →
      ∀ r ∈ savePriceHistory now payload hist, 0 < r.price) ∧
    (∀ (calls : List (PriceMap × ℤ)) (r : HistRow),
      r ∈ runSaveHistory calls [] → 0 < r.price) :=
  ⟨fun now payload hist hh => savePriceHistory_pos now payload hist hh,
   fun calls r hr =>
     runSaveHistory_pos calls [] (fun _ h => absurd h (List.not_mem_nil _)) r hr⟩

/-- Witness for C3: a payload with a positive, a zero and a negative entry
leaves only positive prices in the history, starting from a table whose
rows are all positive. -/
theorem history_prices_strictly_positive_witness :
    ∀ r ∈ savePriceHistory 1700000000000
        [("A", ⟨some 5, none, none, none, none, none, none⟩),
         ("B", ⟨some 0, none, none, none, none, none, none⟩),
         ("C", ⟨some (-3), none, none, none, none, none, none⟩)]
        [⟨"A", 1, 1699000000000⟩], 0 < r.price :=
  history_prices_strictly_positive.1 1700000000000
    [("A", ⟨some 5, none, none, none, none, none, none⟩),
     ("B", ⟨some 0, none, none, none, none, none, none⟩),
     ("C", ⟨some (-3), none, none, none, none, none, none⟩)]
    [⟨"A", 1, 1699000000000⟩]
    (by intro r hr; simp at hr; rw [hr]; norm_num)

/-- Claim C4 (Scenario C): a poll cycle fetching `{A: 10.50, B: 0}` leaves
one Price Cache row each for A and B (B cached with price 0) and appends
exactly one new history point, for A only. -/
theorem poll_cycle_zero_price_scenario :
    (loadPrices true false
        (.resp true [⟨"A", 1050, 3⟩, ⟨"B", 0, 1⟩])
        1700000000000 emptyDB).1.priceData =
      [⟨"A", 21/2, 21/2, 0, 0, 1700000000000⟩,
       ⟨"B", 0, 0, 0, 0, 1700000000000⟩] ∧
    (loadPrices true false
        (.resp true [⟨"A", 1050, 3⟩, ⟨"B", 0, 1⟩])
        1700000000000 emptyDB).1.priceHistory =
      [⟨"A", 21/2, 1700000000000⟩] := by
  refine ⟨?_, ?_⟩ <;>
    norm_num [loadPrices, fetchPriceData, fetchPriceDataBody, savePriceData,
      savePriceHistory, cleanOldPriceHistory, setMetadata, upsertPrice,
      sqlUpsert, sqlLookup, mkPriceRow, jsOrQ, emptyDB,
      List.filterMap_cons, List.filter_cons]
  all_goals decide

/-- Claim C5: `cleanOldPriceHistory` with retention 30 removes every point
older than `now - 30` days, and it is invoked by every successful
`loadPrices` refresh cycle, so the cycle's resulting history holds no such
point for any market key. -/
theorem retention_after_prune_and_refresh :
    (∀ (now : ℤ) (hist : HistTable) (r : HistRow),
      r ∈ cleanOldPriceHistory now 30 hist →
      ¬(r.timestamp < now - 30 * 24 * 60 * 60 * 1000)) ∧
    (∀ (cfg : Bool) (resp : HttpResult) (now : ℤ) (st : DBState)
      (m : PriceMap) (r : HistRow), fetchPriceData resp = some m →
      r ∈ (loadPrices true cfg resp now st).1.priceHistory →
      ¬(r.timestamp < now - 30 * 24 * 60 * 60 * 1000)) := by
  constructor
  · exact fun now hist r hr => cleanOldPriceHistory_bound now hist r hr
  · intro cfg resp now st m r hm hr
    rw [loadPrices_success_priceHistory cfg resp now st m hm] at hr
    exact cleanOldPriceHistory_bound now _ r hr

/-- Witness for C5: pruning a two-row table at a concrete `now` keeps only
the in-window row, and a successful refresh cycle over an old table leaves
no out-of-window row. -/
theorem retention_after_prune_and_refresh_witness :
    (∀ r ∈ cleanOldPriceHistory 1700000000000 30
        [⟨"A", 5, 1000⟩, ⟨"A", 6, 1699999999999⟩],
      ¬(r.timestamp < 1700000000000 - 30 * 24 * 60 * 60 * 1000)) ∧
    (∀ r ∈ (loadPrices true false (.resp true [⟨"A", 1050, 3⟩])
        1700000000000 ⟨[], [], [⟨"A", 5, 1000⟩], []⟩).1.priceHistory,
      ¬(r.timestamp < 1700000000000 - 30 * 24 * 60 * 60 * 1000)) :=
  ⟨fun r hr => retention_after_prune_and_refresh.1 1700000000000
      [⟨"A", 5, 1000⟩, ⟨"A", 6, 1699999999999⟩] r hr,
   fun r hr => retention_after_prune_and_refresh.2 true
      (.resp true [⟨"A", 1050, 3⟩]) 1700000000000
      ⟨[], [], [⟨"A", 5, 1000⟩], []⟩
      [("A", ⟨some (21/2), some (21/2), some (21/2), some (21/2), none, none,
        some 3⟩)] r (by norm_num [fetchPriceData, fetchPriceDataBody]) hr⟩

/-- Claim C6: `syncFromAPI` fails with the typed `EmptyRemoteResponse`
error on a `null` or empty catalog payload, leaving the whole store
untouched, and on a non-empty payload returns the number of records in the
payload as the synced count. -/
theorem sync_empty_payload_typed_error :
    (∀ (now : ℤ) (st : DBState),
      syncFromAPI true none now st = (st, .error .emptyRemoteResponse)) ∧
    (∀ (now : ℤ) (st : DBState),
      syncFromAPI true (some []) now st = (st, .error .emptyRemoteResponse)) ∧
    (∀ (now : ℤ) (st : DBState) (l : List ApiSkin), l ≠ [] →
      (syncFromAPI true (some l) now st).2 = .ok l.length) := by
  refine ⟨fun now st => rfl, fun now st => rfl, fun now st l hl => ?_⟩
  exact syncFromAPI_success_count l (by simpa [List.length_eq_zero] using hl)
    now st

/-- Witness for C6: a one-record payload syncs with count 1. -/
theorem sync_empty_payload_typed_error_witness :
    (syncFromAPI true
        (some [⟨"id1", some "AK-47 | Redline", none, some ⟨"AK-47"⟩, none,
          none, none, none, none, none, none, none, none, none, none, none⟩])
        1700000000000 emptyDB).2 = .ok 1 :=
  sync_empty_payload_typed_error.2.2 1700000000000 emptyDB
    [⟨"id1", some "AK-47 | Redline", none, some ⟨"AK-47"⟩, none,
      none, none, none, none, none, none, none, none, none, none, none⟩]
    (by simp)

/-- Claim C7: a failed remote fetch (and an offline cycle) leaves the
durable stores and the cloud dispatch untouched; a market key no cycle ever
wrote reads back as `null` from the empty store; and once a value is cached
for a key, cycles that do not write that key — in particular every cycle
whose fetch fails — leave the cached value readable unchanged. -/
theorem offline_cache_read_semantics :
    (∀ (cfg : Bool) (r : HttpResult) (now : ℤ) (st : DBState),
      fetchPriceData r = none → loadPrices true cfg r now st = (st, [])) ∧
    (∀ (cfg : Bool) (r : HttpResult) (now : ℤ) (st : DBState),
      loadPrices false cfg r now st = (st, [])) ∧
    (∀ (key : String) (cycles : List Cycle),
      (∀ c ∈ cycles, ¬ CycleWritesKey c key) →
      getPriceData ((runCycles cycles emptyDB).priceData) key = none) ∧
    (∀ (key : String) (v : PriceRow) (cycles : List Cycle) (st : DBState),
      getPriceData st.priceData key = some v →
      (∀ c ∈ cycles, ¬ CycleWritesKey c key) →
      getPriceData ((runCycles cycles st).priceData) key = some v) := by
  refine ⟨fun cfg r now st h => loadPrices_fetchFail cfg r now st h,
    fun cfg r now st => rfl, ?_, ?_⟩
  · intro key cycles h
    rw [getPriceData_runCycles_ne key cycles emptyDB h]
    rfl
  · intro key v cycles st hv h
    rw [getPriceData_runCycles_ne key cycles st h]
    exact hv

/-- Witness for C7: one failed-fetch cycle is a no-op; after a run of two
failing cycles from the empty store, key `"A"` reads `null`; and a store
caching `"A"` keeps its value across a failing cycle. -/
theorem offline_cache_read_semantics_witness :
    loadPrices true false .netError 1700000000000 emptyDB = (emptyDB, []) ∧
    getPriceData ((runCycles
        [⟨true, false, .netError, 1700000000000⟩,
         ⟨true, false, .resp false [], 1700000100000⟩] emptyDB).priceData)
      "A" = none ∧
    getPriceData ((runCycles [⟨true, false, .netError, 1700000100000⟩]
        ⟨[], [⟨"A", 5, 5, 0, 0, 1700000000000⟩], [], []⟩).priceData) "A" =
      some ⟨"A", 5, 5, 0, 0, 1700000000000⟩ := by
  refine ⟨offline_cache_read_semantics.1 false .netError 1700000000000 emptyDB
      rfl, ?_, ?_⟩
  · exact offline_cache_read_semantics.2.2.1 "A"
      [⟨true, false, .netError, 1700000000000⟩,
       ⟨true, false, .resp false [], 1700000100000⟩]
      (by
        intro c hc hw
        obtain ⟨_, m, hm, _⟩ := hw
        simp only [List.mem_cons, List.not_mem_nil, or_false] at hc
        rcases hc with rfl | rfl <;>
          simp [fetchPriceData, fetchPriceDataBody] at hm)
  · exact offline_cache_read_semantics.2.2.2 "A" ⟨"A", 5, 5, 0, 0, 1700000000000⟩
      [⟨true, false, .netError, 1700000100000⟩]
      ⟨[], [⟨"A", 5, 5, 0, 0, 1700000000000⟩], [], []⟩
      (by decide)
      (by
        intro c hc hw
        obtain ⟨_, m, hm, _⟩ := hw
        simp only [List.mem_cons, List.not_mem_nil, or_false] at hc
        subst hc
        simp [fetchPriceData, fetchPriceDataBody] at hm)

/-- Claim C10: `fetchPriceData` turns every network failure and every
non-OK HTTP status into a `null` result instead of an exception, and
`loadPrices` treats a `null` fetch as a silent no-op: no Price Cache write,
no History Log append, no metadata update and no cloud dispatch. -/
theorem fetch_failure_silent_noop :
    fetchPriceData .netError = none ∧
    (∀ body, fetchPriceData (.resp false body) = none) ∧
    (∀ (cfg : Bool) (r : HttpResult) (now : ℤ) (st : DBState),
      fetchPriceData r = none → loadPrices true cfg r now st = (st, [])) :=
  ⟨rfl, fun _ => rfl,
   fun cfg r now st h => loadPrices_fetchFail cfg r now st h⟩

/-- Witness for C10: a network-failed poll cycle against a populated store
changes nothing and dispatches nothing. -/
theorem fetch_failure_silent_noop_witness :
    loadPrices true true .netError 1700000000000
        ⟨[], [⟨"A", 5, 5, 0, 0, 1699000000000⟩], [⟨"A", 5, 1699000000000⟩],
          [("lastPriceUpdate", 1699000000000)]⟩ =
      (⟨[], [⟨"A", 5, 5, 0, 0, 1699000000000⟩], [⟨"A", 5, 1699000000000⟩],
          [("lastPriceUpdate", 1699000000000)]⟩, []) :=
  fetch_failure_silent_noop.2.2 true .netError 1700000000000
    ⟨[], [⟨"A", 5, 5, 0, 0, 1699000000000⟩], [⟨"A", 5, 1699000000000⟩],
      [("lastPriceUpdate", 1699000000000)]⟩ rfl

/-- Claim C2 (code_bug evidence): when the cloud read times out, the
`try` block of `getSkinPriceHistoryFromSupabase` throws, but the function
catches it and returns `[]`; `loadPriceHistory`'s `catch`-based local
fallback therefore never runs, and the chart series is empty even though
the local History Log holds a non-empty in-window series.  No exception
reaches the caller, but the claimed fallback to the local series (and its
`TIMEOUT` reason code) does not happen. -/
theorem cloud_timeout_returns_empty_not_local :
    supabaseHistoryTry .failed .timeout c2Key =
      .error "Query timeout after 15 seconds" ∧
    getSkinPriceHistoryFromSupabase true .failed .timeout c2Key = [] ∧
    loadPriceHistorySeries true .failed .timeout c2Key c2LocalLog .d7
      1700000000000 = [] ∧
    getSkinPriceHistoryLocal c2LocalLog c2Key 1700000000000 =
      [⟨1699990000000, 5⟩, ⟨1699995000000, 6⟩] ∧
    ([] : List HistPoint) ≠ [⟨1699990000000, 5⟩, ⟨1699995000000, 6⟩] := by
  refine ⟨rfl, rfl, rfl, ?_, by decide⟩
  decide

/-! ## Interleaving lemmas for overlapping cycles -/

theorem countP_interleaving (p : PollAction → Bool)
    {l r t : List PollAction} (h : Interleaving l r t) :
    t.countP p = l.countP p + r.countP p := by
  induction h with
  | nil => rfl
  | left _ ih => simp only [List.countP_cons, ih]; omega
  | right _ ih => simp only [List.countP_cons, ih]; omega

theorem mem_interleaving_right {a : PollAction} {l r t : List PollAction}
    (h : Interleaving l r t) (ha : a ∈ r) : a ∈ t := by
  induction h with
  | nil => cases ha
  | left _ ih => exact List.mem_cons_of_mem _ (ih ha)
  | right _ ih =>
    rcases List.mem_cons.mp ha with rfl | ha'
    · exact List.mem_cons_self _ _
    · exact List.mem_cons_of_mem _ (ih ha')

/-- Claim C9 (counterexample): a concrete schedule interleaving two
overlapping poll cycles performs two remote fetches — not the single fetch
coalescing would give — and both cycles' store writes are applied: the
second cycle's write batch appears in the trace and the final History Log
holds one row from each cycle (coalescing would leave one fetch and one
row). -/
theorem overlap_coalescing_counterexample :
    Interleaving
      (pollCycleActionsAt overlapPrices 1700000200000 1700000200001
        1700000200002 1700000200003)
      (pollCycleActionsAt overlapPrices 1700000100000 1700000100001
        1700000100002 1700000100003) overlapTrace ∧
    countFetches overlapTrace = 2 ∧ (2 : ℕ) ≠ 1 ∧
    (runActions overlapTrace emptyDB).priceHistory =
      [⟨"A", 5, 1700000100001⟩, ⟨"A", 5, 1700000200001⟩] := by
  refine ⟨?_, by decide, by decide, ?_⟩
  · exact .left (.right (.right (.right (.right (.right
      (.left (.left (.left (.left .nil)))))))))
  · norm_num [runActions, applyPollAction, savePriceData, savePriceHistory,
      cleanOldPriceHistory, setMetadata, upsertPrice, sqlUpsert, sqlLookup,
      mkPriceRow, jsOrQ, emptyDB, overlapTrace, overlapPrices,
      List.filterMap_cons, List.filter_cons]

/-- Claim C9 (amended): overlapping invocations are NOT coalesced — the
provider holds no in-flight flag, so under every schedule of two
overlapping cycles (all write stamps free, each being the clock value its
statement reads at execution) each cycle performs its own remote fetch
(two in total) and the second cycle's store writes are all performed. -/
theorem overlap_not_coalesced (p₁ p₂ : PriceMap)
    (a₁ b₁ c₁ d₁ a₂ b₂ c₂ d₂ : ℤ) (tr : List PollAction)
    (h : Interleaving (pollCycleActionsAt p₁ a₁ b₁ c₁ d₁)
      (pollCycleActionsAt p₂ a₂ b₂ c₂ d₂) tr) :
    countFetches tr = 2 ∧ PollAction.writePriceData p₂ a₂ ∈ tr ∧
      PollAction.writeHistory p₂ b₂ ∈ tr := by
  refine ⟨?_, ?_, ?_⟩
  · have hc := countP_interleaving isRemoteFetch h
    simpa [countFetches, pollCycleActionsAt, List.countP_cons, isRemoteFetch]
      using hc
  · exact mem_interleaving_right h (by simp [pollCycleActionsAt])
  · exact mem_interleaving_right h (by simp [pollCycleActionsAt])

/-- Witness for the amended C9: the concrete overlapping schedule performs
both fetches and the second cycle's writes. -/
theorem overlap_not_coalesced_witness :
    countFetches overlapTrace = 2 ∧
    PollAction.writePriceData overlapPrices 1700000100000 ∈ overlapTrace ∧
    PollAction.writeHistory overlapPrices 1700000100001 ∈ overlapTrace :=
  overlap_not_coalesced overlapPrices overlapPrices
    1700000200000 1700000200001 1700000200002 1700000200003
    1700000100000 1700000100001 1700000100002 1700000100003 overlapTrace
    (.left (.right (.right (.right (.right (.right
      (.left (.left (.left (.left .nil))))))))))

end CsSkins
